import Mathlib

/-!
Shallow embedding of the frame-synchronized task/context coordination layer
of the gfaestus repository, together with theorems settling the claims of
its natural-language specification.

Sources embedded:
- src/src/ui.rs               (UIState, UICmd, update_anim, apply_cmd, the
                               view publication loop of UIThread::new)
- src/src/context.rs          (ContextMgr, Context, ContextAction_, the
                               pan-to-node spawned task)
- src/src/gui/windows/overlays.rs (OverlayCreator script_query polling)
- src/src/gui/windows/paths.rs    (pagination bounds arithmetic)

f32 arithmetic is embedded as real arithmetic; machine-integer parsing is
embedded over Nat with the explicit 2^64 bound.
-/

set_option maxHeartbeats 1000000

namespace Gfaestus

/-- Modelled from the spec: the 2D point type of src/geometry.rs, which is
not under src/; it is a pair of f32 coordinates with componentwise
addition and scalar multiplication, as used by src/src/ui.rs. -/
structure Point where
  x : ℝ
  y : ℝ

def Point.new (x y : ℝ) : Point := ⟨x, y⟩

/-- Componentwise addition, the `+=` used on `view_delta` in ui.rs. -/
def Point.add (p q : Point) : Point := ⟨p.x + q.x, p.y + q.y⟩

/-- Scalar multiplication, the `*=` by a friction factor in ui.rs. -/
def Point.smul (c : ℝ) (p : Point) : Point := ⟨c * p.x, c * p.y⟩

/-- Modelled from the spec: the View record of src/view.rs, which is not
under src/; its fields are exactly those constructed in
`UIState::new` (src/src/ui.rs lines 105-110). -/
structure View where
  center : Point
  scale : ℝ
  width : ℝ
  height : ℝ

/-- `UIAnimState` from src/src/ui.rs lines 60-65. -/
structure UIAnimState where
  view_const_delta : Point
  view_delta : Point
  scale_delta : ℝ

/-- The `Default` derive on `UIAnimState`: all components zero. -/
def UIAnimState.mkDefault : UIAnimState :=
  { view_const_delta := ⟨0, 0⟩, view_delta := ⟨0, 0⟩, scale_delta := 0 }

/-- `UICmd` from src/src/ui.rs lines 67-75. -/
inductive UICmd where
  | PanConstant (delta : Point)
  | Pan (delta : Point)
  | Zoom (delta : ℝ)
  | SetCenter (center : Point)
  | SetScale (scale : ℝ)
  | Resize (width height : ℝ)

/-- `UIState` from src/src/ui.rs lines 86-90. -/
structure UIState where
  anim : UIAnimState
  view : View

/-- `UIState::new` from src/src/ui.rs lines 104-116. -/
def UIState.new (width height : ℝ) : UIState :=
  { view := { center := Point.new 0 0, scale := 1.0, width := width, height := height }
    anim := UIAnimState.mkDefault }

/-- `UIState::update_anim` from src/src/ui.rs lines 118-139, with
`10.0_f32.powf(t - 1.0)` embedded as the real power `(10:ℝ) ^ (t-1)`. -/
noncomputable def UIState.update_anim (s : UIState) (t : ℝ) : UIState :=
  let zoom_friction := 1.0 - (10.0 : ℝ) ^ (t - 1.0)
  let pan_friction := 1.0 - (10.0 : ℝ) ^ (t - 1.0)
  let dx := s.anim.view_delta.x + s.anim.view_const_delta.x
  let dy := s.anim.view_delta.y + s.anim.view_const_delta.y
  let dz := s.anim.scale_delta
  let scale1 := s.view.scale + t * dz
  let scale2 := max scale1 0.5
  let cx := s.view.center.x + t * dx * scale2
  let cy := s.view.center.y + t * dy * scale2
  let vd := Point.smul pan_friction s.anim.view_delta
  let sd := zoom_friction * s.anim.scale_delta
  let sd' := if |sd| < 0.00001 then 0 else sd
  { view := { s.view with scale := scale2, center := ⟨cx, cy⟩ }
    anim := { s.anim with view_delta := vd, scale_delta := sd' } }

/-- `UIState::apply_cmd` from src/src/ui.rs lines 141-185, with
`f32::log2` embedded as `Real.logb 2`. -/
noncomputable def UIState.apply_cmd (s : UIState) (cmd : UICmd) : UIState :=
  match cmd with
  | .PanConstant delta =>
      let vdx := if delta.x = 0 then s.anim.view_const_delta.x else s.anim.view_delta.x
      let vdy := if delta.y = 0 then s.anim.view_const_delta.y else s.anim.view_delta.y
      { s with anim := { s.anim with view_delta := ⟨vdx, vdy⟩, view_const_delta := delta } }
  | .Pan delta =>
      let d := Point.add s.anim.view_delta delta
      let max_speed : ℝ := 600.0
      let dx := min (max d.x (-max_speed)) max_speed
      let dy := min (max d.y (-max_speed)) max_speed
      { s with anim := { s.anim with view_delta := ⟨dx, dy⟩ } }
  | .Zoom delta =>
      let delta_mult := Real.logb 2 s.view.scale
      let delta_mult := max delta_mult 1.0
      { s with anim := { s.anim with scale_delta := s.anim.scale_delta + delta * delta_mult } }
  | .SetCenter center =>
      { s with anim := { s.anim with view_delta := Point.new 0 0, scale_delta := 0 }
               view := { s.view with center := center } }
  | .SetScale scale =>
      { s with anim := { s.anim with view_delta := Point.new 0 0, scale_delta := 0 }
               view := { s.view with scale := scale } }
  | .Resize width height =>
      { s with view := { s.view with width := width, height := height } }

/-- One operation of the UIThread loop (src/src/ui.rs lines 33-51): either a
command application drained from the command channel, or an integration
step with the elapsed time. -/
inductive UIOp where
  | cmd (c : UICmd)
  | update (t : ℝ)

/-- One step of the UIThread loop acting on the camera state. -/
noncomputable def UIState.stepOp (s : UIState) (op : UIOp) : UIState :=
  match op with
  | .cmd c => s.apply_cmd c
  | .update t => s.update_anim t

/-- A `SetScale` command that does not request a scale below the minimum;
all other operations are unrestricted. -/
def opScaleSafe : UIOp → Prop
  | .cmd (.SetScale sc) => (0.5 : ℝ) ≤ sc
  | _ => True

/-- An operation permitted by claim C2: a `Zoom` command, a `Pan` command,
or an integration step with nonnegative elapsed time. -/
def zoomPanOp : UIOp → Prop
  | .cmd (.Zoom _) => True
  | .cmd (.Pan _) => True
  | .update t => 0 ≤ t
  | _ => False

lemma update_anim_scale_ge (s : UIState) (t : ℝ) :
    (0.5 : ℝ) ≤ (s.update_anim t).view.scale := by
  simp only [UIState.update_anim]
  exact le_max_right _ _

lemma stepOp_scale_invariant (s : UIState) (op : UIOp)
    (hop : opScaleSafe op) (hs : (0.5 : ℝ) ≤ s.view.scale) :
    (0.5 : ℝ) ≤ (s.stepOp op).view.scale := by
  cases op with
  | update t => exact update_anim_scale_ge s t
  | cmd c =>
      cases c with
      | PanConstant delta => simpa [UIState.stepOp, UIState.apply_cmd] using hs
      | Pan delta => simpa [UIState.stepOp, UIState.apply_cmd] using hs
      | Zoom delta => simpa [UIState.stepOp, UIState.apply_cmd] using hs
      | SetCenter center => simpa [UIState.stepOp, UIState.apply_cmd] using hs
      | SetScale sc => simpa [UIState.stepOp, UIState.apply_cmd] using hop
      | Resize w h => simpa [UIState.stepOp, UIState.apply_cmd] using hs

lemma foldl_scale_invariant (ops : List UIOp) (s : UIState)
    (hops : ∀ op ∈ ops, opScaleSafe op) (hs : (0.5 : ℝ) ≤ s.view.scale) :
    (0.5 : ℝ) ≤ (ops.foldl UIState.stepOp s).view.scale := by
  induction ops generalizing s with
  | nil => simpa using hs
  | cons op rest ih =>
      simp only [List.foldl_cons]
      exact ih _ (fun o ho => hops o (List.mem_cons_of_mem _ ho))
        (stepOp_scale_invariant s op (hops op (List.mem_cons_self _ _)) hs)

/-- Claim C1, counterexample: the claim states that every `View` held or
published by the camera state has `scale ≥ 0.5` for every command
sequence, but `apply_cmd` with `SetScale { scale: 0.1 }` stores the
requested scale unclamped (src/src/ui.rs line 178), and the UIThread loop
publishes that view before the next `update_anim` step re-clamps it. -/
theorem c1_counterexample :
    ((UIState.new 100 100).apply_cmd (.SetScale 0.1)).view.scale < 0.5 := by
  simp only [UIState.new, UIState.apply_cmd]
  norm_num

/-- Claim C1, amended: starting from `UIState::new`, for every sequence of
commands and integration steps in which every `SetScale` command requests
a scale of at least 0.5, every camera state reached has
`View.scale ≥ 0.5` (the unamended claim fails only on `SetScale`
commands requesting a scale below 0.5, which are stored unclamped until
the next integration step). -/
theorem c1_scale_invariant_amended (w h : ℝ) (ops : List UIOp)
    (hops : ∀ op ∈ ops, opScaleSafe op) :
    (0.5 : ℝ) ≤ (ops.foldl UIState.stepOp (UIState.new w h)).view.scale := by
  apply foldl_scale_invariant ops _ hops
  norm_num [UIState.new]

/-- Witness for the amended claim C1 at a concrete command sequence. -/
theorem c1_scale_invariant_amended_witness :
    (∀ op ∈ [UIOp.cmd (.SetScale 2.0), UIOp.update 1.0], opScaleSafe op) ∧
    (0.5 : ℝ) ≤
      (([UIOp.cmd (.SetScale 2.0), UIOp.update 1.0]).foldl UIState.stepOp
        (UIState.new 100 100)).view.scale := by
  have hops : ∀ op ∈ [UIOp.cmd (.SetScale 2.0), UIOp.update 1.0], opScaleSafe op := by
    intro op hop
    simp only [List.mem_cons, List.mem_singleton] at hop
    rcases hop with h | h | h
    · subst h; simp only [opScaleSafe]; norm_num
    · subst h; simp only [opScaleSafe]
    · cases h
  exact ⟨hops, c1_scale_invariant_amended 100 100 _ hops⟩

/-- Claim C2: for all sequences consisting only of `Zoom` and `Pan`
commands and integration steps with nonnegative elapsed time, starting
from any state with `View.scale ≥ 0.5`, the scale never drops below 0.5:
`Zoom` and `Pan` leave `view.scale` untouched (they only add momentum),
and `update_anim` clamps the scale at 0.5 after advancing it. -/
theorem c2_zoom_pan_scale_never_below_min (s : UIState) (ops : List UIOp)
    (hops : ∀ op ∈ ops, zoomPanOp op) (hs : (0.5 : ℝ) ≤ s.view.scale) :
    (0.5 : ℝ) ≤ (ops.foldl UIState.stepOp s).view.scale := by
  apply foldl_scale_invariant ops s _ hs
  intro op hop
  have h := hops op hop
  cases op with
  | update t => trivial
  | cmd c => cases c <;> trivial

/-- Witness for claim C2 at a concrete state and command sequence. -/
theorem c2_zoom_pan_scale_never_below_min_witness :
    (∀ op ∈ [UIOp.cmd (.Zoom 1.0), UIOp.cmd (.Pan (Point.new 3 4)), UIOp.update 0],
      zoomPanOp op) ∧
    (0.5 : ℝ) ≤ (UIState.new 100 100).view.scale ∧
    (0.5 : ℝ) ≤
      (([UIOp.cmd (.Zoom 1.0), UIOp.cmd (.Pan (Point.new 3 4)), UIOp.update 0]).foldl
        UIState.stepOp (UIState.new 100 100)).view.scale := by
  have hops : ∀ op ∈ [UIOp.cmd (.Zoom 1.0), UIOp.cmd (.Pan (Point.new 3 4)),
      UIOp.update 0], zoomPanOp op := by
    intro op hop
    simp only [List.mem_cons, List.mem_singleton] at hop
    rcases hop with h | h | h | h
    · subst h; trivial
    · subst h; trivial
    · subst h; simp only [zoomPanOp]; norm_num
    · cases h
  have hs : (0.5 : ℝ) ≤ (UIState.new 100 100).view.scale := by
    norm_num [UIState.new]
  exact ⟨hops, hs, c2_zoom_pan_scale_never_below_min _ _ hops hs⟩

/-- The integration step as worded by the specification, for the refinement
claim C5: a single friction factor `f = 1 - 10^(t-1)`; scale advances by
`t * scale_delta` then is clamped below at 0.5; the center advances by
`t * (view_delta + view_const_delta) * scale` with the updated scale;
both momenta decay by the factor `f`; `scale_delta` snaps to zero below
the epsilon `0.00001`. -/
noncomputable def update_anim_spec (s : UIState) (t : ℝ) : UIState :=
  let f := 1.0 - (10.0 : ℝ) ^ (t - 1.0)
  let scale := max (s.view.scale + t * s.anim.scale_delta) 0.5
  let vel := Point.add s.anim.view_delta s.anim.view_const_delta
  let center := Point.add s.view.center (Point.smul (t * scale) vel)
  let view_delta := Point.smul f s.anim.view_delta
  let sd := f * s.anim.scale_delta
  let scale_delta := if |sd| < 0.00001 then 0 else sd
  { view := { s.view with center := center, scale := scale }
    anim := { s.anim with view_delta := view_delta, scale_delta := scale_delta } }

/-- Claim C5: `UIState::update_anim` computes exactly the step described by
the specification — identical friction `1 - 10^(t-1)` on pan and zoom
momentum, scale advanced by `t * scale_delta` then clamped at 0.5, center
advanced by `t * (view_delta + view_const_delta) * scale` with the
updated scale, both momenta decayed by the friction factor, and
`scale_delta` zero-snapped below epsilon. -/
theorem c5_update_anim_refines_spec (s : UIState) (t : ℝ) :
    s.update_anim t = update_anim_spec s t := by
  simp only [UIState.update_anim, update_anim_spec, Point.add, Point.smul,
    UIState.mk.injEq, View.mk.injEq, UIAnimState.mk.injEq, Point.mk.injEq]
  exact ⟨trivial, ⟨by ring, by ring⟩, trivial, trivial, trivial⟩

section LatestValueChannel

variable {α : Type}

/-- The view publication step of the UIThread loop (src/src/ui.rs lines
48-50): the producer sends only when the single slot is empty, so an
unread value is kept and the new value is dropped; the producer never
blocks. The slot is the state of the `bounded(1)` channel. -/
def publishView (slot : Option α) (v : α) : Option α :=
  match slot with
  | none => some v
  | some w => some w

/-- One operation on the single-slot view channel: a publish by the
producer, or a read by the consumer (which empties the slot). -/
inductive ChanOp (α : Type) where
  | pub (v : α)
  | read

/-- Run a sequence of channel operations from a given slot state, returning
the list of values each read observed (in order). -/
def runChan (slot : Option α) : List (ChanOp α) → List (Option α)
  | [] => []
  | .pub v :: rest => runChan (publishView slot v) rest
  | .read :: rest => slot :: runChan (none : Option α) rest

/-- Reference behaviour for the amended claim C3: keep the list of values
published since the last read; each read observes the first of them. -/
def specChan (pending : List α) : List (ChanOp α) → List (Option α)
  | [] => []
  | .pub v :: rest => specChan (pending ++ [v]) rest
  | .read :: rest => pending.head? :: specChan ([] : List α) rest

lemma publishView_head (pending : List α) (v : α) :
    publishView pending.head? v = (pending ++ [v]).head? := by
  cases pending <;> simp [publishView]

lemma runChan_eq_specChan (ops : List (ChanOp α)) (pending : List α) :
    runChan pending.head? ops = specChan pending ops := by
  induction ops generalizing pending with
  | nil => rfl
  | cons op rest ih =>
      cases op with
      | pub v =>
          simp only [runChan, specChan, publishView_head]
          exact ih (pending ++ [v])
      | read =>
          simp only [runChan, specChan]
          exact congrArg _ (ih ([] : List α))

end LatestValueChannel

/-- Claim C3, counterexample: the claim states that each read returns the
latest value published before it, but the producer publishes only when
the slot is empty (src/src/ui.rs line 48), so after publishing 1 and then
2 into the empty slot, a read observes the stale value 1, not the latest
value 2. -/
theorem c3_counterexample :
    runChan (none : Option ℕ) [ChanOp.pub 1, ChanOp.pub 2, ChanOp.read] = [some 1] ∧
      (some 1 : Option ℕ) ≠ some 2 := by
  constructor
  · rfl
  · decide

/-- Claim C3, amended: the channel is single-slot and the producer never
blocks, but it keeps the oldest unread value rather than overwriting:
publishes while a value is unread are dropped, and each read returns the
first value published after the previous read (or nothing if none was
published). -/
theorem c3_channel_reads_first_published (ops : List (ChanOp ℕ)) :
    runChan (none : Option ℕ) ops = specChan ([] : List ℕ) ops :=
  runChan_eq_specChan ops ([] : List ℕ)

section ContextStore

variable {K V : Type} [DecidableEq K]

/-- Insert-or-overwrite on an association list, the embedding of
`HashMap::insert` as used on `context.values` in
`ContextMgr::begin_frame` (src/src/context.rs line 522). -/
def mapInsert : List (K × V) → K → V → List (K × V)
  | [], k, v => [(k, v)]
  | (k', v') :: rest, k, v =>
      if k' = k then (k, v) :: rest else (k', v') :: mapInsert rest k v

/-- Lookup on an association list, the embedding of `HashMap::get` and
`contains_key` on `Context::values`. -/
def mapLookup : List (K × V) → K → Option V
  | [], _ => none
  | (k', v') :: rest, k => if k' = k then some v' else mapLookup rest k

/-- `InitState` from src/src/context.rs lines 120-125. -/
inductive InitState where
  | Null
  | Initializing
  | Ready
deriving DecidableEq

/-- The state of `ContextMgr` (src/src/context.rs lines 133-158) relevant to
the claims: the tri-state lifecycle flag, the menu flags, the unbounded
producer channel buffer `ctx_tx`/`ctx_rx`, and the materialized
`frame_context` store. Keys embed `TypeId`, values embed `CtxVal`. -/
structure ContextMgr (K V : Type) where
  init : InitState
  load_context_this_frame : Bool
  context_menu_open : Bool
  ctx_channel : List (K × V)
  frame_context : List (K × V)

/-- `ContextMgr::default` from src/src/context.rs lines 354-373. -/
def ContextMgr.mkDefault : ContextMgr K V :=
  { init := .Null
    load_context_this_frame := false
    context_menu_open := false
    ctx_channel := []
    frame_context := [] }

/-- `ContextMgr::produce_context` from src/src/context.rs lines 443-460:
only while the menu-about-to-open flag is set is the producer closure run
and its `(type_id, value)` pair sent on the channel. -/
def ContextMgr.produce_context (s : ContextMgr K V) (k : K) (v : V) : ContextMgr K V :=
  if s.load_context_this_frame then
    { s with ctx_channel := s.ctx_channel ++ [(k, v)] }
  else s

/-- `ContextMgr::open_context_menu` from src/src/context.rs lines 462-470:
raises the load flag only if the menu was not already open. -/
def ContextMgr.open_context_menu (s : ContextMgr K V) : ContextMgr K V :=
  { s with
      load_context_this_frame :=
        if ¬s.context_menu_open then true else s.load_context_this_frame
      context_menu_open := true }

/-- `ContextMgr::close_context_menu` from src/src/context.rs lines 476-479. -/
def ContextMgr.close_context_menu (s : ContextMgr K V) : ContextMgr K V :=
  { s with load_context_this_frame := false, context_menu_open := false }

/-- The drain loop of `ContextMgr::begin_frame` (src/src/context.rs lines
515-523): every buffered `(type_id, value)` pair is inserted into the
existing store in arrival order, overwriting entries that share a key. -/
def drainContext (store : List (K × V)) (buf : List (K × V)) : List (K × V) :=
  buf.foldl (fun m kv => mapInsert m kv.1 kv.2) store

/-- `ContextMgr::begin_frame` from src/src/context.rs lines 482-536: the
first call moves `Null` to `Initializing` and returns; a call in
`Initializing` moves to `Ready` and falls through; then, if the
menu-about-to-open flag is set, the channel is drained into the store
(which is not cleared first) and the flag is lowered. -/
def ContextMgr.begin_frame (s : ContextMgr K V) : ContextMgr K V :=
  if s.init = .Null then { s with init := .Initializing }
  else
    let s' := if s.init = .Initializing then { s with init := .Ready } else s
    if s'.load_context_this_frame then
      { s' with
          frame_context := drainContext s'.frame_context s'.ctx_channel
          ctx_channel := []
          load_context_this_frame := false }
    else s'

/-- The `Ready` guard at the top of `ContextMgr::show` (src/src/context.rs
lines 575-577): `show` proceeds only when the lifecycle state is
`Ready`, and otherwise returns immediately. -/
def ContextMgr.show_runs (s : ContextMgr K V) : Bool :=
  match s.init with
  | .Ready => true
  | _ => false

/-- One externally-driven operation on the context manager, for stating
whole-trace properties. -/
inductive CtxOp (K V : Type) where
  | beginFrame
  | openMenu
  | closeMenu
  | produce (k : K) (v : V)

/-- Apply one `CtxOp` to the manager state. -/
def ContextMgr.stepOp (s : ContextMgr K V) : CtxOp K V → ContextMgr K V
  | .beginFrame => s.begin_frame
  | .openMenu => s.open_context_menu
  | .closeMenu => s.close_context_menu
  | .produce k v => s.produce_context k v

lemma mapLookup_mapInsert (m : List (K × V)) (k k' : K) (v' : V) :
    mapLookup (mapInsert m k' v') k =
      if k' = k then some v' else mapLookup m k := by
  induction m with
  | nil => simp [mapInsert, mapLookup]
  | cons hd tl ih =>
      obtain ⟨k₀, v₀⟩ := hd
      by_cases h₀ : k₀ = k'
      · subst h₀
        by_cases h : k₀ = k <;> simp [mapInsert, mapLookup, h]
      · by_cases h : k₀ = k
        · subst h
          simp [mapInsert, mapLookup, h₀, Ne.symm h₀, ih]
        · simp [mapInsert, mapLookup, h₀, h, ih]

lemma mapLookup_append (l₁ l₂ : List (K × V)) (k : K) :
    mapLookup (l₁ ++ l₂) k =
      (mapLookup l₁ k).orElse (fun _ => mapLookup l₂ k) := by
  induction l₁ with
  | nil => simp [mapLookup, Option.orElse]
  | cons hd tl ih =>
      obtain ⟨k₀, v₀⟩ := hd
      by_cases h : k₀ = k <;> simp [mapLookup, h, ih, Option.orElse]

lemma mapLookup_drainContext (buf : List (K × V)) (store : List (K × V)) (k : K) :
    mapLookup (drainContext store buf) k =
      (mapLookup buf.reverse k).orElse (fun _ => mapLookup store k) := by
  induction buf generalizing store with
  | nil => simp [drainContext, mapLookup, Option.orElse]
  | cons hd tl ih =>
      obtain ⟨k₀, v₀⟩ := hd
      simp only [drainContext, List.foldl_cons] at ih ⊢
      rw [ih (mapInsert store k₀ v₀)]
      simp only [List.reverse_cons, mapLookup_append, mapLookup_mapInsert]
      by_cases h : k₀ = k <;>
        cases hml : mapLookup tl.reverse k <;>
          simp [mapLookup, h, hml, Option.orElse]

end ContextStore

/-- Claim C9: the first `begin_frame` call moves `Null` to `Initializing`
and changes nothing else (no materialization even if the menu flag is
set); a call in `Initializing` moves the state to `Ready`;
materialization (any change to the store) happens only when the
menu-about-to-open flag was set and leaves the lifecycle in `Ready`; and
`show` is a no-op unless the state is `Ready`. -/
theorem c9_lifecycle_tri_state (s : ContextMgr ℕ ℕ) :
    (s.init = .Null → s.begin_frame = { s with init := .Initializing }) ∧
    (s.init = .Initializing → s.begin_frame.init = .Ready) ∧
    (s.begin_frame.frame_context ≠ s.frame_context →
      s.load_context_this_frame = true ∧ s.begin_frame.init = .Ready) ∧
    (s.init ≠ .Ready → s.show_runs = false) := by
  refine ⟨?_, ?_, ?_, ?_⟩
  · intro h
    simp [ContextMgr.begin_frame, h]
  · intro h
    cases hl : s.load_context_this_frame <;>
      simp [ContextMgr.begin_frame, h, hl]
  · intro hne
    cases hi : s.init <;> cases hl : s.load_context_this_frame <;>
      simp [ContextMgr.begin_frame, hi, hl] at hne ⊢
  · intro h
    cases hi : s.init
    · simp [ContextMgr.show_runs, hi]
    · simp [ContextMgr.show_runs, hi]
    · exact absurd hi h

/-- Witness for claim C9 at the freshly-constructed manager. -/
theorem c9_lifecycle_tri_state_witness :
    (ContextMgr.mkDefault : ContextMgr ℕ ℕ).begin_frame
        = { (ContextMgr.mkDefault : ContextMgr ℕ ℕ) with init := .Initializing } ∧
      (ContextMgr.mkDefault : ContextMgr ℕ ℕ).show_runs = false := by
  refine ⟨(c9_lifecycle_tri_state ContextMgr.mkDefault).1 rfl, ?_⟩
  exact (c9_lifecycle_tri_state ContextMgr.mkDefault).2.2.2 (by decide)

/-- The operation sequence exercising two menu-open cycles: initialize
(two frame ticks), open the menu, push key 1, drain, close, reopen, push
key 2. The final `begin_frame` then drains with key 1 still in the
store. -/
def c4_ops : List (CtxOp ℕ ℕ) :=
  [.beginFrame, .beginFrame, .openMenu, .produce 1 10, .beginFrame,
   .closeMenu, .openMenu, .produce 2 20]

/-- The manager state right before the second drain: lifecycle `Ready`,
menu flag raised, channel holding only the pair for key 2, store still
holding key 1 from the first drain. -/
def c4_pre : ContextMgr ℕ ℕ := c4_ops.foldl ContextMgr.stepOp ContextMgr.mkDefault

/-- Claim C4, counterexample: the claim states that after a drain the
store's key set equals exactly the keys pushed since the flag was
raised, but `begin_frame` inserts into the existing map without clearing
it (src/src/context.rs line 522), so after a second menu-open cycle that
pushed only key 2, the drained store still contains key 1 from the
first cycle. -/
theorem c4_counterexample :
    c4_pre.ctx_channel = [(2, 20)] ∧
    c4_pre.load_context_this_frame = true ∧
    (c4_pre.begin_frame).frame_context.map Prod.fst = [1, 2] ∧
    ([1, 2] : List ℕ) ≠ [2] := by
  refine ⟨by decide, by decide, by decide, by decide⟩

/-- Claim C4, amended: while the flag is false, `produce_context` pushes
nothing and `begin_frame` leaves the materialized store unchanged; once
the flag is set and the drain runs (any `begin_frame` past the `Null`
lifecycle state), each key maps to the last value pushed for it since
the flag was raised when one was pushed, and otherwise retains its
previous value — previous entries are overwritten in place per key, but
the store is never cleared, so keys from earlier menu-open cycles
persist. -/
theorem c4_store_drain_amended (K V : Type) [DecidableEq K]
    (s : ContextMgr K V) (k : K) (v : V) :
    (s.load_context_this_frame = false → s.produce_context k v = s) ∧
    (s.load_context_this_frame = false →
      (s.begin_frame).frame_context = s.frame_context) ∧
    (s.load_context_this_frame = true → s.init ≠ .Null →
      mapLookup (s.begin_frame).frame_context k =
        (mapLookup s.ctx_channel.reverse k).orElse
          (fun _ => mapLookup s.frame_context k)) := by
  refine ⟨?_, ?_, ?_⟩
  · intro h
    simp [ContextMgr.produce_context, h]
  · intro h
    cases hi : s.init <;> simp [ContextMgr.begin_frame, h, hi]
  · intro h hinit
    have hfc : (s.begin_frame).frame_context =
        drainContext s.frame_context s.ctx_channel := by
      cases hi : s.init with
      | Null => exact absurd hi hinit
      | Initializing => simp [ContextMgr.begin_frame, hi, h]
      | Ready => simp [ContextMgr.begin_frame, hi, h]
    rw [hfc, mapLookup_drainContext]

/-- Witness for the amended claim C4, applied at the quiescent default
state (flag false) and at the pre-drain state of the two-cycle run
(flag true, key 1 looked up). -/
theorem c4_store_drain_amended_witness :
    ((ContextMgr.mkDefault : ContextMgr ℕ ℕ).produce_context 1 10
        = ContextMgr.mkDefault) ∧
    mapLookup (c4_pre.begin_frame).frame_context 1 =
      (mapLookup c4_pre.ctx_channel.reverse 1).orElse
        (fun _ => mapLookup c4_pre.frame_context 1) := by
  refine ⟨(c4_store_drain_amended ℕ ℕ ContextMgr.mkDefault 1 10).1 rfl, ?_⟩
  exact (c4_store_drain_amended ℕ ℕ c4_pre 1 0).2.2 (by decide) (by decide)

section ActionRegistry

variable {K V E : Type} [DecidableEq K]

/-- `ContextAction_` from src/src/context.rs lines 70-96: a required set of
type keys and an effect closure; the effect is embedded as a function
from the context store to an abstract effect value. -/
structure ContextAction_ (K V E : Type) where
  req : List K
  action : List (K × V) → E

/-- `ContextAction_::is_applicable` from src/src/context.rs lines 98-100:
every required key must be present in the context store. -/
def ContextAction_.is_applicable (a : ContextAction_ K V E)
    (ctx : List (K × V)) : Bool :=
  a.req.all (fun r => (mapLookup ctx r).isSome)

/-- `ContextAction_::apply_action` from src/src/context.rs lines 102-115:
returns `None` without running the effect when the action is not
applicable. -/
def ContextAction_.apply_action (a : ContextAction_ K V E)
    (ctx : List (K × V)) : Option E :=
  if a.is_applicable ctx then some (a.action ctx) else none

/-- The action-list rendering loop of `ContextMgr::show`
(src/src/context.rs lines 605-612): of the registered `(name, action)`
pairs, exactly those whose action is applicable to the frame context are
offered as buttons. -/
def offeredActions (actions : List (String × ContextAction_ K V E))
    (ctx : List (K × V)) : List String :=
  (actions.filter (fun na => na.2.is_applicable ctx)).map Prod.fst

end ActionRegistry

/-- The closed set of context-value type keys named by the specification,
standing in for the `TypeId`s of `NodeId`, `PathId`, and the selection
set. -/
inductive TypeKey where
  | nodeId
  | pathId
  | selection
deriving DecidableEq

/-- Claim C6: the registry never offers an action whose required-type set
is not a subset of the store's key set; invoking a non-applicable action
returns nothing without running its effect; and for a store containing
only the `NodeId` key, of two actions requiring `{}` and
`{NodeId, PathId}`, only the first is offered. -/
theorem c6_action_registry_applicability
    (actions : List (String × ContextAction_ TypeKey ℕ ℕ))
    (ctx : List (TypeKey × ℕ)) (a : ContextAction_ TypeKey ℕ ℕ) (name : String) :
    ((name, a) ∈ actions.filter (fun na => na.2.is_applicable ctx) →
      ∀ r ∈ a.req, (mapLookup ctx r).isSome = true) ∧
    (a.is_applicable ctx = false → a.apply_action ctx = none) ∧
    offeredActions
        [("first", ⟨[], fun _ => 0⟩),
         ("second", ⟨[TypeKey.nodeId, TypeKey.pathId], fun _ => 0⟩)]
        [(TypeKey.nodeId, 42)] = ["first"] := by
  refine ⟨?_, ?_, by decide⟩
  · intro hmem r hr
    have := (List.mem_filter.mp hmem).2
    simp only [ContextAction_.is_applicable, List.all_eq_true] at this
    exact this r hr
  · intro h
    simp [ContextAction_.apply_action, h]

/-- Witness for claim C6 at the concrete two-action registry of the claim. -/
theorem c6_action_registry_applicability_witness :
    (∀ r ∈ ([] : List TypeKey), (mapLookup [(TypeKey.nodeId, 42)] r).isSome = true) ∧
    ContextAction_.apply_action
        (⟨[TypeKey.nodeId, TypeKey.pathId], fun _ => 0⟩ : ContextAction_ TypeKey ℕ ℕ)
        [(TypeKey.nodeId, 42)] = none := by
  constructor
  · exact (c6_action_registry_applicability
      [("first", ⟨[], fun _ => 0⟩)] [(TypeKey.nodeId, 42)]
      ⟨[], fun _ => 0⟩ "first").1 (by simp [ContextAction_.is_applicable])
  · exact (c6_action_registry_applicability []
      [(TypeKey.nodeId, 42)]
      ⟨[TypeKey.nodeId, TypeKey.pathId], fun _ => 0⟩ "second").2.1 (by decide)

/-- Rust's `str::parse::<u64>()` as invoked in the pan-to-node task
(src/src/context.rs line 342): an optional leading plus sign followed by
at least one ASCII digit, with the value bounded by `u64::MAX`;
everything else is a parse error, embedded as `none`. -/
def parseU64 (s : String) : Option ℕ :=
  let digits := match s.data with
    | '+' :: rest => rest
    | other => other
  if digits.isEmpty then none
  else if digits.all Char.isDigit then
    let n := digits.foldl (fun acc c => acc * 10 + (c.toNat - 48)) 0
    if n < 2 ^ 64 then some n else none
  else none

/-- The application messages of src/src/app.rs, plus the navigation
message. The `gotoNode` constructor is modelled from the spec: the
`AppMsg::goto_node` constructor is referenced from src/src/context.rs
lines 346 and 857 but its definition is not under src/; per the spec it
is the navigation request carrying the target node id. -/
inductive AppMsg where
  | selectNode (node : Option ℕ)
  | hoverNode (node : Option ℕ)
  | gotoNode (node : ℕ)
deriving DecidableEq

/-- The async block spawned by the pan-to-node action (src/src/context.rs
lines 338-350): receive at most one committed string from the modal's
one-shot channel (`Option (Option String)` is the result of
`next().await` on a channel of `Option String`), flatten it, parse it as
a `u64`, and send exactly one `goto_node` message when the graph
collaborator contains the node; otherwise do nothing. The graph
collaborator is embedded as its set of node ids. -/
def pan_to_node_task (graph : List ℕ) (recv : Option (Option String)) :
    List AppMsg :=
  match (recv.bind id).bind parseU64 with
  | some parsed => if graph.contains parsed then [AppMsg.gotoNode parsed] else []
  | none => []

/-- Claim C7: committing text that parses as a `u64` naming a node present
in the graph emits exactly one `goto_node` message; text that fails to
parse, or parses to an absent node, emits no message (the awaiting task
silently discards the value — the task is total and returns the empty
message list, raising no error). -/
theorem c7_go_to_node_flow (graph : List ℕ) (text : String) (n : ℕ) :
    (parseU64 text = some n → graph.contains n = true →
      pan_to_node_task graph (some (some text)) = [AppMsg.gotoNode n]) ∧
    (parseU64 text = none → pan_to_node_task graph (some (some text)) = []) ∧
    (parseU64 text = some n → graph.contains n = false →
      pan_to_node_task graph (some (some text)) = []) := by
  refine ⟨?_, ?_, ?_⟩
  · intro hp hg
    have hg' : n ∈ graph := by simpa using hg
    simp [pan_to_node_task, hp, hg']
  · intro hp
    simp [pan_to_node_task, hp]
  · intro hp hg
    have hg' : n ∉ graph := by simpa using hg
    simp [pan_to_node_task, hp, hg']

/-- Witness for claim C7: the spec's end-to-end example, committing "42"
against a graph that contains node 42 and against one that does not,
and committing a non-numeric string. -/
theorem c7_go_to_node_flow_witness :
    pan_to_node_task [41, 42] (some (some "42")) = [AppMsg.gotoNode 42] ∧
    pan_to_node_task [41] (some (some "42")) = [] ∧
    pan_to_node_task [41, 42] (some (some "abc")) = [] := by
  refine ⟨?_, ?_, ?_⟩
  · exact (c7_go_to_node_flow [41, 42] "42" 42).1 (by decide) (by decide)
  · exact (c7_go_to_node_flow [41] "42" 42).2.2 (by decide) (by decide)
  · exact (c7_go_to_node_flow [41, 42] "abc" 0).2.1 (by decide)

section TaskHandle

variable {R : Type}

/-- Modelled from the spec: the `AsyncResult`/`TaskHandle` state machine of
crate::asynchronous, which is not under src/ (only its caller
`OverlayCreator::ui` in src/src/gui/windows/overlays.rs is). Per the
spec it is `Pending | Ready(T) | Taken`, transitioning `Pending → Ready`
exactly once on completion and to `Taken` on first retrieval. -/
inductive TaskState (R : Type) where
  | pending
  | ready (r : R)
  | taken

/-- Modelled from the spec: completion delivers the value only to a
`pending` handle; a completed or drained handle is unchanged. -/
def TaskState.complete : TaskState R → R → TaskState R
  | .pending, r => .ready r
  | s, _ => s

/-- Modelled from the spec: non-blocking retrieval; the first retrieval of
a ready handle yields the value and marks the handle `taken`, any other
retrieval yields nothing. -/
def TaskState.take : TaskState R → Option R × TaskState R
  | .pending => (none, .pending)
  | .ready r => (some r, .taken)
  | .taken => (none, .taken)

/-- The `script_query` polling step of `OverlayCreator::ui`
(src/src/gui/windows/overlays.rs lines 308-354): if a query handle is
stored, poll it; when a result is taken it is handled and the stored
query is cleared (`self.script_query = None`), so later frames see no
handle at all. -/
def overlayPollFrame (q : Option (TaskState R)) :
    Option R × Option (TaskState R) :=
  match q with
  | none => (none, none)
  | some h =>
      match h.take with
      | (some r, _) => (some r, none)
      | (none, h') => (none, some h')

end TaskHandle

/-- Claim C8: a completed result is consumed at most once — completing an
already-completed or drained handle changes nothing, retrieval after a
successful retrieval yields nothing — and once the overlay creator's
polling loop takes and handles a script result it clears the stored
query, so the frame after a handled result observes no result and no
handle. -/
theorem c8_result_consumed_at_most_once (s s' : TaskState ℕ) (r r' : ℕ)
    (q q' : Option (TaskState ℕ)) :
    (s ≠ .pending → s.complete r' = s) ∧
    (s.take = (some r, s') → (s'.take).1 = none) ∧
    (overlayPollFrame q = (some r, q') →
      q' = none ∧ overlayPollFrame q' = (none, none)) := by
  refine ⟨?_, ?_, ?_⟩
  · intro h
    cases s with
    | pending => exact absurd rfl h
    | ready r₀ => rfl
    | taken => rfl
  · intro h
    cases s with
    | pending => simp [TaskState.take] at h
    | ready r₀ =>
        simp only [TaskState.take, Prod.mk.injEq] at h
        rw [← h.2]
        rfl
    | taken => simp [TaskState.take] at h
  · intro h
    cases q with
    | none => simp [overlayPollFrame] at h
    | some hdl =>
        cases hdl with
        | pending => simp [overlayPollFrame, TaskState.take] at h
        | ready r₀ =>
            simp only [overlayPollFrame, TaskState.take, Prod.mk.injEq] at h
            exact ⟨h.2.symm, by rw [← h.2]; rfl⟩
        | taken => simp [overlayPollFrame, TaskState.take] at h

/-- Witness for claim C8 at a concrete ready handle holding 7. -/
theorem c8_result_consumed_at_most_once_witness :
    ((TaskState.taken : TaskState ℕ).complete 3 = TaskState.taken) ∧
    ((TaskState.taken : TaskState ℕ).take).1 = none ∧
    overlayPollFrame (none : Option (TaskState ℕ)) = (none, none) := by
  refine ⟨?_, ?_, ?_⟩
  · exact (c8_result_consumed_at_most_once TaskState.taken TaskState.taken 7 3
      none none).1 (by simp)
  · exact (c8_result_consumed_at_most_once (TaskState.ready 7) TaskState.taken 7 3
      none none).2.1 rfl
  · exact ((c8_result_consumed_at_most_once (TaskState.ready 7) TaskState.taken 7 3
      (some (TaskState.ready 7)) none).2.2 rfl).2

/-- The pagination bounds arithmetic shared by `PathList::update_slots`
(src/src/gui/windows/paths.rs lines 416-418) and `StepList::ui` (lines
518-519): `page_start = min(page * page_size, len - len % page_size)`
and `page_end = min(page_start + page_size, len)`. Rust's `%` by zero
panics, embedded as `none`. -/
def pageBounds (page page_size len : ℕ) : Option (ℕ × ℕ) :=
  if page_size = 0 then none
  else
    let page_start := min (page * page_size) (len - len % page_size)
    let page_end := min (page_start + page_size) len
    some (page_start, page_end)

/-- Claim C10: for every page value and backing length, provided
`page_size ≥ 1`, the computed bounds satisfy
`page_start ≤ page_end ≤ len`, so the slices
`paths[page_start..page_end]` and `steps[page_start..page_end]` are in
bounds and never panic; with `page_size = 0` the modulo itself panics,
so the hypothesis is necessary. -/
theorem c10_pagination_bounds_safe (page page_size len : ℕ)
    (h : 1 ≤ page_size) :
    (∃ ps pe, pageBounds page page_size len = some (ps, pe) ∧
      ps ≤ pe ∧ pe ≤ len) ∧
    pageBounds page 0 len = none := by
  constructor
  · have hps : page_size ≠ 0 := by omega
    refine ⟨min (page * page_size) (len - len % page_size),
      min (min (page * page_size) (len - len % page_size) + page_size) len,
      ?_, ?_, ?_⟩
    · simp [pageBounds, hps]
    · exact le_min (Nat.le_add_right _ _)
        (le_trans (min_le_right _ _) (Nat.sub_le _ _))
    · exact min_le_right _ _
  · simp [pageBounds]

/-- Witness for claim C10 at a page past the last one: page 7 of size 5
over 12 elements clamps to the slice bounds 10 and 12. -/
theorem c10_pagination_bounds_safe_witness :
    (∃ ps pe, pageBounds 7 5 12 = some (ps, pe) ∧ ps ≤ pe ∧ pe ≤ 12) ∧
    pageBounds 7 0 12 = none :=
  c10_pagination_bounds_safe 7 5 12 (by decide)

end Gfaestus
